import Mathlib

/-!
Verification of the projectile-motion simulator core (`src/untitled.py`,
class `ProjectileMotionSimulator`) against its natural-language specification.

The Python source is shallowly embedded: floating-point arithmetic is
idealized as exact real arithmetic over `ℝ`; Python's raising float
division (`ZeroDivisionError` on a zero divisor) is modelled by an
explicit `Except` error; the mutable simulator object becomes explicit
state passing over `SimState`.
-/

namespace ProjectileSim

/-- One entry of the `points` list built by `calculate_trajectory`:
the Python list `[t, x, y, vx, vy, speed]`. -/
structure TrajectoryPoint where
  t : ℝ
  x : ℝ
  y : ℝ
  vx : ℝ
  vy : ℝ
  speed : ℝ

/-- Failure conditions of the physics computation.  The Python body of
`calculate_trajectory` contains one fallible operation: the float division
by `g` when computing `t_max`, which raises `ZeroDivisionError` when `g == 0`. -/
inductive PhysErr where
  | zeroDivision

/-- Source `math.radians(theta)`: degrees to radians. -/
noncomputable def theta_rad (theta : ℝ) : ℝ :=
  theta * (Real.pi / 180)

/-- The body of the `while t <= t_max` loop in `calculate_trajectory`,
for one value of `t` (with `s = sin(theta_rad)`, `c = cos(theta_rad)`
precomputed, as the source computes `theta_rad` once):
`x = v0*cos(θ)*t`; `y = y0 + v0*sin(θ)*t - 0.5*g*t**2`, clamped to `0`
when negative; `vx = v0*cos(θ)`; `vy = v0*sin(θ) - g*t`;
`speed = sqrt(vx**2 + vy**2)`. -/
noncomputable def samplePoint (v0 s c g y0 t : ℝ) : TrajectoryPoint :=
  { t := t
    x := v0 * c * t
    y := if y0 + v0 * s * t - 0.5 * g * t ^ 2 < 0 then 0
         else y0 + v0 * s * t - 0.5 * g * t ^ 2
    vx := v0 * c
    vy := v0 * s - g * t
    speed := Real.sqrt ((v0 * c) ^ 2 + (v0 * s - g * t) ^ 2) }

/-- The sampling loop of `calculate_trajectory`:
`while t <= t_max: points.append(...); t += dt` with `dt = 0.05`. -/
noncomputable def trajLoop (v0 s c g y0 t_max : ℝ) (t : ℝ) : List TrajectoryPoint :=
  if h : t ≤ t_max then
    samplePoint v0 s c g y0 t :: trajLoop v0 s c g y0 t_max (t + 0.05)
  else []
termination_by Nat.floor ((t_max - t) / (0.05 : ℝ) + 1)
decreasing_by
  have h05 : (0 : ℝ) < 0.05 := by norm_num
  have hx : (0 : ℝ) ≤ (t_max - t) / 0.05 := div_nonneg (by linarith) (le_of_lt h05)
  have e : (t_max - (t + 0.05)) / (0.05 : ℝ) + 1 = (t_max - t) / 0.05 := by
    rw [show t_max - (t + 0.05) = (t_max - t) - 0.05 by ring, sub_div,
      div_self (by norm_num : (0.05 : ℝ) ≠ 0)]
    ring
  rw [e, Nat.floor_add_one hx]
  exact Nat.lt_succ_of_le (Nat.le_refl _)

/-- Source `discriminant = (v0 * math.sin(theta_rad))**2 + 2 * g * y0`. -/
noncomputable def discriminant_of (v0 theta g y0 : ℝ) : ℝ :=
  (v0 * Real.sin (theta_rad theta)) ^ 2 + 2 * g * y0

/-- The discriminant after the defensive clamp
`if discriminant < 0: discriminant = 0`. -/
noncomputable def clampedD (v0 theta g y0 : ℝ) : ℝ :=
  if discriminant_of v0 theta g y0 < 0 then 0 else discriminant_of v0 theta g y0

/-- Source `t_max = (v0 * math.sin(theta_rad) + math.sqrt(discriminant)) / g`. -/
noncomputable def t_max_of (v0 theta g y0 : ℝ) : ℝ :=
  (v0 * Real.sin (theta_rad theta) + Real.sqrt (clampedD v0 theta g y0)) / g

/-- Embedding of `calculate_trajectory(v0, theta, g, y0)` (src lines 340-363).  The
division computing `t_max` is Python float division, which raises
`ZeroDivisionError` when `g == 0`; this is the only fallible step, modelled
by the `g = 0` branch.  There is no other validation of `g` in the source. -/
noncomputable def calculate_trajectory (v0 theta g y0 : ℝ) :
    Except PhysErr (List TrajectoryPoint) :=
  if g = 0 then Except.error PhysErr.zeroDivision
  else
    Except.ok (trajLoop v0 (Real.sin (theta_rad theta)) (Real.cos (theta_rad theta))
      g y0 (t_max_of v0 theta g y0) 0)

/-- Number of samples the loop produces when started at `t = 0` with the
given `t_max`: `⌊t_max / dt⌋ + 1` when `0 ≤ t_max`, and `0` otherwise. -/
noncomputable def numSamples (tm : ℝ) : ℕ :=
  if 0 ≤ tm then Nat.floor (tm / (0.05 : ℝ)) + 1 else 0

lemma trajLoop_eq_range (v0 s c g y0 t_max : ℝ) (n : ℕ) :
    ∀ t : ℝ, (if t ≤ t_max then Nat.floor ((t_max - t) / (0.05 : ℝ)) + 1 else 0) = n →
      trajLoop v0 s c g y0 t_max t =
        (List.range n).map (fun k : ℕ => samplePoint v0 s c g y0 (t + (k : ℝ) * 0.05)) := by
  induction n with
  | zero =>
    intro t hn
    by_cases ht : t ≤ t_max
    · rw [if_pos ht] at hn
      omega
    · rw [trajLoop, dif_neg ht]
      simp
  | succ m ih =>
    intro t hn
    by_cases ht : t ≤ t_max
    · rw [if_pos ht] at hn
      rw [trajLoop, dif_pos ht]
      have key : (if t + 0.05 ≤ t_max
          then Nat.floor ((t_max - (t + 0.05)) / (0.05 : ℝ)) + 1 else 0) = m := by
        by_cases ht2 : t + 0.05 ≤ t_max
        · rw [if_pos ht2]
          have h1 : (t_max - (t + 0.05)) / (0.05 : ℝ) = (t_max - t) / 0.05 - 1 := by
            rw [show t_max - (t + 0.05) = (t_max - t) - 0.05 by ring, sub_div,
              div_self (by norm_num : (0.05 : ℝ) ≠ 0)]
          have hge : (1 : ℝ) ≤ (t_max - t) / 0.05 := by
            rw [le_div_iff₀ (by norm_num : (0 : ℝ) < 0.05)]
            linarith
          have hfl : 1 ≤ Nat.floor ((t_max - t) / (0.05 : ℝ)) := by
            have := Nat.le_floor (α := ℝ) (n := 1) (by exact_mod_cast hge)
            exact this
          rw [h1, show (1 : ℝ) = ((1 : ℕ) : ℝ) by norm_num, Nat.floor_sub_nat]
          omega
        · rw [if_neg ht2]
          have hlt : (t_max - t) / (0.05 : ℝ) < 1 := by
            rw [div_lt_one (by norm_num : (0 : ℝ) < 0.05)]
            linarith
          have : Nat.floor ((t_max - t) / (0.05 : ℝ)) = 0 :=
            Nat.floor_eq_zero.mpr hlt
          omega
      rw [ih _ key, List.range_succ_eq_map]
      simp only [List.map_cons, List.map_map]
      congr 1
      · congr 1
        push_cast
        ring
      · apply List.map_congr_left
        intro k _
        simp only [Function.comp_apply]
        congr 1
        push_cast
        ring
    · rw [if_neg ht] at hn
      omega

/-- Characterization of a successful `calculate_trajectory` run: for `g ≠ 0`
it returns exactly the samples at times `0, dt, 2·dt, …`. -/
lemma calculate_trajectory_eq (v0 theta g y0 : ℝ) (hg : g ≠ 0) :
    calculate_trajectory v0 theta g y0 =
      Except.ok ((List.range (numSamples (t_max_of v0 theta g y0))).map
        (fun k : ℕ => samplePoint v0 (Real.sin (theta_rad theta)) (Real.cos (theta_rad theta))
          g y0 ((k : ℝ) * 0.05))) := by
  rw [calculate_trajectory, if_neg hg]
  congr 1
  have h := trajLoop_eq_range v0 (Real.sin (theta_rad theta)) (Real.cos (theta_rad theta))
    g y0 (t_max_of v0 theta g y0) (numSamples (t_max_of v0 theta g y0)) 0 ?_
  · rw [h]
    apply List.map_congr_left
    intro k _
    rw [zero_add]
  · rw [numSamples, sub_zero]

/-! ## Registry: projectile collection state of `ProjectileMotionSimulator`

The mutable object state relevant to the registry operations is
`self.projectiles` (a list of projectile dicts) and
`self.current_projectile_id` (the auto-name/color counter).  Rendering
handles (`trajectory_line`, `point`, plot axes, widgets) are UI glue and
not modelled; slider/text-box reads become explicit parameters. -/

/-- A parameter bundle as passed to `add_projectile(params=...)`; the
`default_params` dict has exactly these keys, in this order. -/
structure Params where
  v0 : ℝ
  theta : ℝ
  g : ℝ
  y0 : ℝ
  color : String
  name : String

/-- The `self.default_params` dict. -/
def default_params : Params :=
  { v0 := 20, theta := 45, g := 9.8, y0 := 0, color := "#3498DB", name := "Projectile" }

/-- The `self.available_colors` palette. -/
def available_colors : List String :=
  ["#3498DB", "#E74C3C", "#2ECC71", "#F39C12", "#9B59B6", "#1ABC9C", "#D35400", "#C0392B"]

/-- One projectile dict as built by `add_projectile` (the rendering
handles `trajectory_line`/`point`, both initially `None`, are omitted). -/
structure Projectile where
  id : ℕ
  name : String
  v0 : ℝ
  theta : ℝ
  g : ℝ
  y0 : ℝ
  color : String
  points : List TrajectoryPoint

/-- The registry-relevant state of the simulator object. -/
structure SimState where
  projectiles : List Projectile
  current_projectile_id : ℕ

/-- State set by `__init__` before any projectile is added:
`self.projectiles = []`, `self.current_projectile_id = 0`. -/
def initState : SimState :=
  { projectiles := [], current_projectile_id := 0 }

/-- The `params` used by `add_projectile` when called without explicit
params: defaults with auto-generated name `Projectile_<counter>` and
palette color `available_colors[counter % len(available_colors)]`. -/
def resolvedParams (p? : Option Params) (counter : ℕ) : Params :=
  match p? with
  | none =>
    { default_params with
        name := "Projectile_" ++ toString counter
        color := available_colors.getD (counter % available_colors.length) "" }
  | some p => p

/-- Value of `self.current_projectile_id` after `add_projectile`: incremented only
on the auto-generated (no explicit params) path. -/
def nextCounter (p? : Option Params) (counter : ℕ) : ℕ :=
  match p? with
  | none => counter + 1
  | some _ => counter

/-- The projectile dict literal built by `add_projectile`:
`id = len(self.projectiles)` at add time, fields from `params`,
`points = []`. -/
def mkProjectile (p : Params) (id : ℕ) : Projectile :=
  { id := id, name := p.name, v0 := p.v0, theta := p.theta, g := p.g,
    y0 := p.y0, color := p.color, points := [] }

/-- Embedding of `add_projectile(event=None, params=None)` (src lines 365-388): resolves
params (auto name/color and counter bump when none are given), builds the
dict with positional `id` and empty `points`, and appends it. -/
def add_projectile (p? : Option Params) (S : SimState) : SimState :=
  { projectiles := S.projectiles ++
      [mkProjectile (resolvedParams p? S.current_projectile_id) S.projectiles.length]
    current_projectile_id := nextCounter p? S.current_projectile_id }

/-- The empty-registry signal: the `else` branches of `remove_projectile`
and `update_current_projectile` that only report a warning status
(`EmptyRegistry` in the spec's vocabulary). -/
inductive RegError where
  | emptyRegistry

/-- Embedding of `remove_projectile` (src lines 390-398): pops and reports the last
projectile when one exists, otherwise signals the empty-registry notice
and leaves the state unchanged. -/
def remove_projectile (S : SimState) :
    Except RegError (Projectile × SimState) :=
  match S.projectiles.getLast? with
  | some removed =>
    Except.ok (removed,
      { projectiles := S.projectiles.dropLast
        current_projectile_id := S.current_projectile_id })
  | none => Except.error RegError.emptyRegistry

/-- Embedding of `clear_all_projectiles` (src lines 400-406): empties the collection
and resets the auto-name counter to 0. -/
def clear_all_projectiles (_S : SimState) : SimState :=
  { projectiles := [], current_projectile_id := 0 }

/-- The values `update_current_projectile` reads from the UI widgets
(`v0_slider.val`, `theta_slider.val`, `g_slider.val`, `y0_slider.val`,
`name_text`, `color_text`), made explicit inputs. -/
structure UpdateParams where
  v0 : ℝ
  theta : ℝ
  g : ℝ
  y0 : ℝ
  name : String
  color : String

/-- Embedding of `update_current_projectile` (src lines 408-425): signals the
empty-registry notice when no projectile exists; otherwise replaces the
parameter fields of the last projectile (`self.projectiles[-1].update(...)`)
in place.  Note: the source performs no validation of the new values and
does not touch `points`. -/
def update_current_projectile (p : UpdateParams) (S : SimState) :
    Except RegError SimState :=
  match S.projectiles.getLast? with
  | none => Except.error RegError.emptyRegistry
  | some current =>
    let updated : Projectile :=
      { current with
          v0 := p.v0
          theta := p.theta
          g := p.g
          y0 := p.y0
          name := p.name
          color := p.color }
    Except.ok
      { projectiles := S.projectiles.dropLast ++ [updated]
        current_projectile_id := S.current_projectile_id }

/-! ## Operation sequences over the registry -/

/-- The registry mutations named by the spec's registry invariants:
`add` (with or without explicit params), `remove_last`, `clear`. -/
inductive Op where
  | add (p? : Option Params)
  | removeLast
  | clear

/-- Effect of one operation on the simulator state.  A `removeLast` on an
empty registry leaves the state unchanged (the source only reports a
status message). -/
def runOp (o : Op) (S : SimState) : SimState :=
  match o with
  | Op.add p? => add_projectile p? S
  | Op.removeLast =>
    match remove_projectile S with
    | Except.ok (_, S') => S'
    | Except.error _ => S
  | Op.clear => clear_all_projectiles S

/-- Run a finite sequence of registry operations. -/
def runOps (ops : List Op) (S : SimState) : SimState :=
  ops.foldl (fun s o => runOp o s) S

/-! ## AnimationScheduler (modelled from the spec)

The given source file ends mid-definition: `run_simulation` and the
animation-frame callback it installs are referenced (src line 164) but
their bodies are not present under `src/`. -/

/-- Modelled from the spec: the per-projectile frame report of the
AnimationScheduler (spec section 4.3), whose implementation
(`run_simulation` / the FuncAnimation frame callback) is missing from the
given source.  For frame `f`: a projectile whose `points` has an entry at
index `f` reports that point's `(x, y)`; a projectile whose trajectory
already ended (`f ≥ len(points)`) reports its last point held fixed; a
projectile with no points at all reports nothing. -/
def frame_position (p : Projectile) (f : ℕ) : Option (ℝ × ℝ) :=
  if h : f < p.points.length then
    some ((p.points.get ⟨f, h⟩).x, (p.points.get ⟨f, h⟩).y)
  else
    p.points.getLast?.map (fun q => (q.x, q.y))

/-- Modelled from the spec: the shared frame range bound
`max_len = max over projectiles of len(points)` (spec section 4.3). -/
def max_len (projs : List Projectile) : ℕ :=
  (projs.map (fun p => p.points.length)).foldr max 0

/-- Modelled from the spec: the output of the AnimationScheduler for one
frame, a mapping from projectile id to its reported `(x, y)` pair
(spec section 4.3). -/
def frame_snapshot (projs : List Projectile) (f : ℕ) :
    List (ℕ × Option (ℝ × ℝ)) :=
  projs.map (fun p => (p.id, frame_position p f))

/-! ## SerializationCodec (modelled from the spec)

`export_to_json` and `import_from_json` are referenced as button callbacks
(src lines 282, 288) but their bodies are not present under `src/`. -/

/-- Modelled from the spec: one persisted record of
`SerializationCodec.export` (spec section 4.4) — exactly the mutable
input parameters `name, v0, theta, g, y0, color`, excluding `id` and
`points`; the implementation `export_to_json` is missing from the given
source. -/
structure ExportRecord where
  name : String
  v0 : ℝ
  theta : ℝ
  g : ℝ
  y0 : ℝ
  color : String

/-- Modelled from the spec: `export(registry)` produces one record per
projectile, in registry order (spec section 4.4). -/
def export_registry (S : SimState) : List ExportRecord :=
  S.projectiles.map (fun p =>
    { name := p.name, v0 := p.v0, theta := p.theta, g := p.g,
      y0 := p.y0, color := p.color })

/-- Modelled from the spec: `import(record)` returns the param sets in
file order, ready to be fed one-by-one into `registry.add(params)`
(spec section 4.4); the implementation `import_from_json` is missing from
the given source. -/
def import_records (recs : List ExportRecord) : List Params :=
  recs.map (fun r =>
    { v0 := r.v0, theta := r.theta, g := r.g, y0 := r.y0,
      color := r.color, name := r.name })

/-- Re-add each imported param set, in order, via `add_projectile`. -/
def readd_all (ps : List Params) (S : SimState) : SimState :=
  ps.foldl (fun s p => add_projectile (some p) s) S

/-- The `(name, v0, theta, g, y0, color)` tuple of a projectile — the
round-trip law compares registries by this projection. -/
def paramTuple (p : Projectile) : String × ℝ × ℝ × ℝ × ℝ × String :=
  (p.name, p.v0, p.theta, p.g, p.y0, p.color)

/-! ## Bookkeeping used to state the registry-invariant claims -/

/-- Per-sequence tally `(adds, effective removes)` since the last clear:
an `add` counts one, a `removeLast` counts one exactly when the registry
is non-empty at that moment (which, given the length invariant, is
`removes so far < adds so far`), and a `clear` resets both. -/
def tallyStep (acc : ℕ × ℕ) (op : Op) : ℕ × ℕ :=
  match op with
  | Op.add _ => (acc.1 + 1, acc.2)
  | Op.removeLast => if acc.2 < acc.1 then (acc.1, acc.2 + 1) else acc
  | Op.clear => (0, 0)

/-- The `(adds, effective removes)` tally of a whole sequence, starting
from the last clear (or the beginning). -/
def opsTally (ops : List Op) : ℕ × ℕ :=
  ops.foldl tallyStep (0, 0)

/-- Registry state instrumented with creation stamps: each projectile is
paired with the index of the `add` that created it (`stamp` is the number
of adds performed so far).  Used only to state and prove the
creation-order part of the registry invariant. -/
structure TagState where
  items : List (ℕ × Projectile)
  counter : ℕ
  stamp : ℕ

/-- One operation on the stamped registry, mirroring `runOp`. -/
def runOpT (o : Op) (T : TagState) : TagState :=
  match o with
  | Op.add p? =>
    { items := T.items ++
        [(T.stamp, mkProjectile (resolvedParams p? T.counter) T.items.length)]
      counter := nextCounter p? T.counter
      stamp := T.stamp + 1 }
  | Op.removeLast =>
    if T.items.isEmpty then T
    else { items := T.items.dropLast, counter := T.counter, stamp := T.stamp }
  | Op.clear => { items := [], counter := 0, stamp := T.stamp }

/-- Run a sequence of operations on the stamped registry. -/
def runOpsT (ops : List Op) (T : TagState) : TagState :=
  ops.foldl (fun t o => runOpT o t) T

/-- The stamped initial state. -/
def initTagState : TagState :=
  { items := [], counter := 0, stamp := 0 }

/-! ## Helper lemmas -/

lemma range_dropLast (n : ℕ) : (List.range n).dropLast = List.range (n - 1) := by
  cases n with
  | zero => simp
  | succ m => rw [List.range_succ, List.dropLast_concat]; simp

/-- Ids are the positions `0..N-1`, stated as a map identity. -/
def IdsCanonical (S : SimState) : Prop :=
  S.projectiles.map (fun p => p.id) = List.range S.projectiles.length

lemma idsCanonical_runOp (o : Op) (S : SimState) (h : IdsCanonical S) :
    IdsCanonical (runOp o S) := by
  cases o with
  | add p? =>
    unfold IdsCanonical at h ⊢
    simp only [runOp, add_projectile, mkProjectile, List.map_append, List.map_cons,
      List.map_nil, List.length_append, List.length_cons, List.length_nil]
    rw [h, List.range_succ]
  | removeLast =>
    unfold IdsCanonical at h ⊢
    cases hl : S.projectiles.getLast? with
    | none => simp [runOp, remove_projectile, hl, h]
    | some x =>
      simp only [runOp, remove_projectile, hl]
      rw [List.map_dropLast, h, range_dropLast, List.length_dropLast]
  | clear =>
    unfold IdsCanonical
    simp [runOp, clear_all_projectiles]

lemma idsCanonical_runOps (ops : List Op) :
    ∀ S : SimState, IdsCanonical S → IdsCanonical (runOps ops S) := by
  induction ops with
  | nil => intro S h; exact h
  | cons o rest ih =>
    intro S h
    exact ih (runOp o S) (idsCanonical_runOp o S h)

/-- Characterization of a successful `update_current_projectile`. -/
lemma update_ok_char (p : UpdateParams) (S : SimState) (cur : Projectile)
    (hl : S.projectiles.getLast? = some cur) :
    update_current_projectile p S =
      Except.ok
        { projectiles := S.projectiles.dropLast ++
            [{ cur with
                v0 := p.v0
                theta := p.theta
                g := p.g
                y0 := p.y0
                name := p.name
                color := p.color }]
          current_projectile_id := S.current_projectile_id } := by
  rw [update_current_projectile, hl]

lemma getLast?_eq_some_of_ne_nil (l : List Projectile) (h : l ≠ []) :
    l.getLast? = some (l.getLast h) :=
  List.getLast?_eq_getLast l h

/-- The combined registry/tally/stamp invariant used for the counting and
creation-order claims. -/
def RegInv (S : SimState) (acc : ℕ × ℕ) (T : TagState) : Prop :=
  S.projectiles.length = acc.1 - acc.2 ∧
  acc.2 ≤ acc.1 ∧
  T.items.map Prod.snd = S.projectiles ∧
  List.Chain' (fun a b => a < b) (T.items.map Prod.fst) ∧
  (∀ st ∈ T.items.map Prod.fst, st < T.stamp) ∧
  T.counter = S.current_projectile_id

lemma regInv_step (o : Op) (S : SimState) (acc : ℕ × ℕ) (T : TagState)
    (h : RegInv S acc T) :
    RegInv (runOp o S) (tallyStep acc o) (runOpT o T) := by
  obtain ⟨hlen, hra, hproj, hchain, hbound, hcnt⟩ := h
  have hlenT : T.items.length = S.projectiles.length := by
    rw [← hproj, List.length_map]
  cases o with
  | add p? =>
    refine ⟨?_, ?_, ?_, ?_, ?_, ?_⟩
    · simp only [runOp, add_projectile, tallyStep, List.length_append,
        List.length_cons, List.length_nil]
      omega
    · simp only [tallyStep]; omega
    · simp only [runOpT, runOp, add_projectile, List.map_append, List.map_cons,
        List.map_nil, hproj, hcnt, hlenT]
    · simp only [runOpT, List.map_append, List.map_cons, List.map_nil]
      rw [List.chain'_append]
      refine ⟨hchain, List.chain'_singleton _, ?_⟩
      intro a ha b hb
      simp only [List.head?_cons, Option.mem_def, Option.some.injEq] at hb
      subst hb
      exact hbound a (List.mem_of_mem_getLast? ha)
    · simp only [runOpT, List.map_append, List.map_cons, List.map_nil]
      intro st hst
      rcases List.mem_append.mp hst with h1 | h2
      · exact Nat.lt_succ_of_lt (hbound st h1)
      · simp only [List.mem_singleton] at h2
        omega
    · simp only [runOpT, runOp, add_projectile, hcnt]
  | removeLast =>
    cases hl : S.projectiles.getLast? with
    | none =>
      have hnil : S.projectiles = [] := List.getLast?_eq_none_iff.mp hl
      have hTnil : T.items = [] := by
        have h0 : List.map Prod.snd T.items = [] := by rw [hproj, hnil]
        exact List.map_eq_nil_iff.mp h0
      have hzero : S.projectiles.length = 0 := by rw [hnil]; rfl
      have hacc : ¬ acc.2 < acc.1 := by omega
      have hS : runOp Op.removeLast S = S := by
        simp [runOp, remove_projectile, hl]
      have hT : runOpT Op.removeLast T = T := by
        simp [runOpT, hTnil]
      have hA : tallyStep acc Op.removeLast = acc := by
        simp only [tallyStep, if_neg hacc]
      rw [hS, hT, hA]
      exact ⟨hlen, hra, hproj, hchain, hbound, hcnt⟩
    | some x =>
      have hne : S.projectiles ≠ [] := by
        intro hc
        rw [hc] at hl
        simp at hl
      have hpos : 0 < S.projectiles.length := List.length_pos.mpr hne
      have hacc : acc.2 < acc.1 := by omega
      have hTne : T.items ≠ [] := by
        intro hc
        rw [hc] at hproj
        simp only [List.map_nil] at hproj
        exact hne hproj.symm
      have hS : runOp Op.removeLast S =
          { projectiles := S.projectiles.dropLast
            current_projectile_id := S.current_projectile_id } := by
        simp [runOp, remove_projectile, hl]
      have hT : runOpT Op.removeLast T =
          { items := T.items.dropLast, counter := T.counter, stamp := T.stamp } := by
        rw [runOpT, if_neg]
        simp only [List.isEmpty_iff]
        exact hTne
      have hA : tallyStep acc Op.removeLast = (acc.1, acc.2 + 1) := by
        simp only [tallyStep, if_pos hacc]
      rw [hS, hT, hA]
      refine ⟨?_, ?_, ?_, ?_, ?_, ?_⟩
      · simp only [List.length_dropLast]
        omega
      · omega
      · rw [List.map_dropLast, hproj]
      · rw [List.map_dropLast]
        exact hchain.sublist (List.dropLast_sublist _)
      · rw [List.map_dropLast]
        intro st hst
        exact hbound st ((List.dropLast_sublist _).subset hst)
      · exact hcnt
  | clear =>
    refine ⟨?_, ?_, ?_, ?_, ?_, ?_⟩ <;>
      simp [runOp, clear_all_projectiles, runOpT, tallyStep]

lemma regInv_runOps (ops : List Op) :
    ∀ (S : SimState) (acc : ℕ × ℕ) (T : TagState), RegInv S acc T →
      RegInv (runOps ops S) (ops.foldl tallyStep acc) (runOpsT ops T) := by
  induction ops with
  | nil => intro S acc T h; exact h
  | cons o rest ih =>
    intro S acc T h
    exact ih (runOp o S) (tallyStep acc o) (runOpT o T) (regInv_step o S acc T h)

lemma regInv_init : RegInv initState (0, 0) initTagState := by
  refine ⟨rfl, Nat.le_refl 0, rfl, List.chain'_nil, ?_, rfl⟩
  intro st hst
  simp [initTagState] at hst

/-- Tuple projection of `readd_all`: re-adding param sets appends their
tuples in order. -/
lemma readd_all_tuples (ps : List Params) :
    ∀ S : SimState, (readd_all ps S).projectiles.map paramTuple =
      S.projectiles.map paramTuple ++
        ps.map (fun p => (p.name, p.v0, p.theta, p.g, p.y0, p.color)) := by
  induction ps with
  | nil => intro S; simp [readd_all]
  | cons p rest ih =>
    intro S
    have hstep : readd_all (p :: rest) S = readd_all rest (add_projectile (some p) S) := rfl
    rw [hstep, ih]
    simp [add_projectile, resolvedParams, mkProjectile, paramTuple]

lemma getLast_eq_of_getLast?_eq_some (S : SimState) (cur : Projectile)
    (hl : S.projectiles.getLast? = some cur) (hne : S.projectiles ≠ []) :
    S.projectiles.getLast hne = cur := by
  have h := List.getLast?_eq_getLast S.projectiles hne
  rw [hl] at h
  exact (Option.some.inj h).symm

lemma dropLast_append_map_points (S : SimState) (cur upd : Projectile)
    (hl : S.projectiles.getLast? = some cur) (hpts : upd.points = cur.points) :
    (S.projectiles.dropLast ++ [upd]).map (fun q => q.points) =
      S.projectiles.map (fun q => q.points) := by
  have hne : S.projectiles ≠ [] := by
    intro hc
    rw [hc] at hl
    simp at hl
  have hsplit : S.projectiles.dropLast ++ [cur] = S.projectiles := by
    rw [← getLast_eq_of_getLast?_eq_some S cur hl hne]
    exact List.dropLast_append_getLast hne
  conv_rhs => rw [← hsplit]
  simp [hpts]

lemma numSamples_zero : numSamples 0 = 1 := by
  simp [numSamples]

lemma t_max_theta0_y00 (v0 g : ℝ) : t_max_of v0 0 g 0 = 0 := by
  simp [t_max_of, clampedD, discriminant_of, theta_rad]

/-- Evaluation of `calculate_trajectory` in the degenerate case
`theta = 0`, `t_max = 0`: exactly one sample, at `t = 0`. -/
lemma calc_theta0_tmax0 (v0 g y0 : ℝ) (hg : g ≠ 0) (htm : t_max_of v0 0 g y0 = 0) :
    calculate_trajectory v0 0 g y0 = Except.ok [samplePoint v0 0 1 g y0 0] := by
  rw [calculate_trajectory_eq v0 0 g y0 hg, htm, numSamples_zero]
  simp [theta_rad, List.range_succ]

/-! ## The claims -/

/-- C5: starting from an empty registry, after every finite sequence of
add, remove-last and clear operations, the `id` fields of the projectiles
are exactly `0..N-1` in list order. -/
theorem registry_ids_canonical (ops : List Op) :
    (runOps ops initState).projectiles.map (fun p => p.id) =
      List.range (runOps ops initState).projectiles.length :=
  idsCanonical_runOps ops initState (by simp [IdsCanonical, initState])

/-- C6: after every finite sequence of add, remove-last and clear
operations from the empty registry, the number of projectiles equals the
adds minus the effective removes since the last clear, and the surviving
entries appear in creation order (their creation stamps, recorded by the
instrumented run that projects back onto the real one, are strictly
increasing along the list). -/
theorem registry_count_and_creation_order (ops : List Op) :
    (runOps ops initState).projectiles.length =
      (opsTally ops).1 - (opsTally ops).2 ∧
    (opsTally ops).2 ≤ (opsTally ops).1 ∧
    (runOpsT ops initTagState).items.map Prod.snd = (runOps ops initState).projectiles ∧
    List.Chain' (fun a b => a < b) ((runOpsT ops initTagState).items.map Prod.fst) := by
  have h := regInv_runOps ops initState (0, 0) initTagState regInv_init
  exact ⟨h.1, h.2.1, h.2.2.1, h.2.2.2.1⟩

/-- C7: `remove_projectile` and `update_current_projectile` signal the
empty-registry notice exactly when the registry holds no projectiles; on a
non-empty registry `remove_projectile` removes and reports the last entry
and `update_current_projectile` succeeds without signalling. -/
theorem empty_registry_signalling (S : SimState) (p : UpdateParams) :
    (remove_projectile S = Except.error RegError.emptyRegistry ↔
      S.projectiles = []) ∧
    (update_current_projectile p S = Except.error RegError.emptyRegistry ↔
      S.projectiles = []) ∧
    ∀ hne : S.projectiles ≠ [],
      remove_projectile S = Except.ok (S.projectiles.getLast hne,
        { projectiles := S.projectiles.dropLast
          current_projectile_id := S.current_projectile_id }) ∧
      ∃ S', update_current_projectile p S = Except.ok S' := by
  cases hl : S.projectiles.getLast? with
  | none =>
    have hnil : S.projectiles = [] := List.getLast?_eq_none_iff.mp hl
    have hrem : remove_projectile S = Except.error RegError.emptyRegistry := by
      rw [remove_projectile, hl]
    have hupd : update_current_projectile p S = Except.error RegError.emptyRegistry := by
      rw [update_current_projectile, hl]
    refine ⟨⟨fun _ => hnil, fun _ => hrem⟩, ⟨fun _ => hnil, fun _ => hupd⟩, ?_⟩
    intro hne
    exact absurd hnil hne
  | some cur =>
    have hne : S.projectiles ≠ [] := by
      intro hc
      rw [hc] at hl
      simp at hl
    have hrem : remove_projectile S = Except.ok (cur,
        { projectiles := S.projectiles.dropLast
          current_projectile_id := S.current_projectile_id }) := by
      rw [remove_projectile, hl]
    refine ⟨?_, ?_, ?_⟩
    · constructor
      · intro hc
        rw [hrem] at hc
        exact absurd hc (by simp)
      · intro hc
        exact absurd hc hne
    · constructor
      · intro hc
        rw [update_ok_char p S cur hl] at hc
        exact absurd hc (by simp)
      · intro hc
        exact absurd hc hne
    · intro hne'
      refine ⟨?_, ?_⟩
      · rw [hrem, getLast_eq_of_getLast?_eq_some S cur hl hne']
      · exact ⟨_, update_ok_char p S cur hl⟩

/-- C7 witness: on the empty registry both operations signal the
empty-registry notice. -/
theorem empty_registry_signalling_witness :
    remove_projectile initState = Except.error RegError.emptyRegistry ∧
    update_current_projectile
      { v0 := 20, theta := 45, g := 9.8, y0 := 0, name := "Projectile", color := "#3498DB" }
      initState = Except.error RegError.emptyRegistry := by
  have h := empty_registry_signalling initState
    { v0 := 20, theta := 45, g := 9.8, y0 := 0, name := "Projectile", color := "#3498DB" }
  exact ⟨h.1.mpr rfl, h.2.1.mpr rfl⟩

/-- C1 counterexample: on a registry holding one freshly added projectile
(whose `points` list is empty), a successful `update_current_projectile`
leaves `points` empty, while `calculate_trajectory` at the new parameters
returns a non-empty sample list — the trajectory is stale, refuting the
claim that after an update the last projectile's points equal the
recomputation at its new parameters. -/
theorem update_points_stale_counterexample :
    (update_current_projectile
        { v0 := 1, theta := 0, g := 1, y0 := 0, name := "P", color := "#3498DB" }
        (add_projectile none initState)).map
      (fun S => S.projectiles.map (fun q => q.points)) =
      Except.ok [[]] ∧
    calculate_trajectory 1 0 1 0 =
      Except.ok [{ t := 0, x := 0, y := 0, vx := 1, vy := 0, speed := 1 }] ∧
    ([] : List TrajectoryPoint) ≠
      [{ t := 0, x := 0, y := 0, vx := 1, vy := 0, speed := 1 }] := by
  refine ⟨rfl, ?_, by simp⟩
  rw [calc_theta0_tmax0 1 1 0 one_ne_zero (t_max_theta0_y00 1 1)]
  have hpt : samplePoint 1 0 1 1 0 0 =
      { t := 0, x := 0, y := 0, vx := 1, vy := 0, speed := 1 } := by
    simp [samplePoint]
  rw [hpt]

/-- C1 (amended): a successful `update_current_projectile` replaces the
parameter fields of the last projectile but leaves every projectile's
`points` unchanged — trajectories are not recomputed by the update; the
recomputation happens only in the separate run-simulation pass. -/
theorem update_preserves_points (p : UpdateParams) (S S' : SimState)
    (h : update_current_projectile p S = Except.ok S') :
    S'.projectiles.map (fun q => q.points) = S.projectiles.map (fun q => q.points) ∧
    ∃ cur, S.projectiles.getLast? = some cur ∧
      S'.projectiles.getLast? = some
        { cur with
            v0 := p.v0
            theta := p.theta
            g := p.g
            y0 := p.y0
            name := p.name
            color := p.color } := by
  cases hl : S.projectiles.getLast? with
  | none =>
    rw [update_current_projectile, hl] at h
    exact absurd h (by simp)
  | some cur =>
    rw [update_ok_char p S cur hl] at h
    have hS' := (Except.ok.inj h).symm
    subst hS'
    refine ⟨?_, cur, rfl, ?_⟩
    · exact dropLast_append_map_points S cur _ hl rfl
    · simp [List.getLast?_concat]

/-- C1 witness: concrete successful update on a one-projectile registry,
with the points of every projectile preserved. -/
theorem update_preserves_points_witness :
    (update_current_projectile
        { v0 := 2, theta := 30, g := 9.8, y0 := 5, name := "Q", color := "#E74C3C" }
        (add_projectile none initState)).map
      (fun S => S.projectiles.map (fun q => q.points)) =
      Except.ok ((add_projectile none initState).projectiles.map (fun q => q.points)) := by
  have h := update_preserves_points
    { v0 := 2, theta := 30, g := 9.8, y0 := 5, name := "Q", color := "#E74C3C" }
    (add_projectile none initState) _ rfl
  exact congrArg Except.ok h.1

/-- C8 counterexample: `update_current_projectile` with `g = -1` on a
non-empty registry succeeds (no `InvalidParameter` signal exists in the
source) and overwrites the prior parameters: the projectile's `g` changes
from the default `9.8` to `-1`.  This refutes the claim that such an
update signals an error and leaves the prior state unchanged. -/
theorem update_accepts_nonpositive_g_counterexample :
    (update_current_projectile
        { v0 := 1, theta := 0, g := -1, y0 := 0, name := "P", color := "#3498DB" }
        (add_projectile none initState)).map
      (fun S => S.projectiles.map (fun q => q.g)) =
      Except.ok [-1] ∧
    (add_projectile none initState).projectiles.map (fun q => q.g) = [9.8] :=
  ⟨rfl, rfl⟩

/-- C8 (amended): `update_current_projectile` performs no validation of
the new parameters: on a non-empty registry an update whose `g` is zero
or negative succeeds like any other, setting the last projectile's `g` to
the new value (overwriting the prior parameters) while leaving every
`points` list unchanged. -/
theorem update_no_validation (p : UpdateParams) (S : SimState)
    (hne : S.projectiles ≠ []) (_hg : p.g ≤ 0) :
    ∃ S', update_current_projectile p S = Except.ok S' ∧
      S'.projectiles.getLast?.map (fun q => q.g) = some p.g ∧
      S'.projectiles.map (fun q => q.points) = S.projectiles.map (fun q => q.points) := by
  have hl : S.projectiles.getLast? = some (S.projectiles.getLast hne) :=
    List.getLast?_eq_getLast S.projectiles hne
  refine ⟨_, update_ok_char p S _ hl, ?_, ?_⟩
  · simp
  · exact dropLast_append_map_points S _ _ hl rfl

/-- C8 witness: concrete non-empty registry and `g = -1` update. -/
theorem update_no_validation_witness :
    (add_projectile none initState).projectiles ≠ [] ∧
    (-1 : ℝ) ≤ 0 ∧
    ∃ S', update_current_projectile
        { v0 := 1, theta := 0, g := -1, y0 := 0, name := "P", color := "#3498DB" }
        (add_projectile none initState) = Except.ok S' ∧
      S'.projectiles.getLast?.map (fun q => q.g) = some (-1 : ℝ) ∧
      S'.projectiles.map (fun q => q.points) =
        (add_projectile none initState).projectiles.map (fun q => q.points) := by
  refine ⟨by simp [add_projectile], by norm_num, ?_⟩
  exact update_no_validation
    { v0 := 1, theta := 0, g := -1, y0 := 0, name := "P", color := "#3498DB" }
    (add_projectile none initState) (by simp [add_projectile]) (by norm_num)

/-- C9: for every frame index below `max_len`, the frame snapshot reports,
for each projectile, its `points[f]` when `f < len(points)` and its last
point, held fixed, when `f ≥ len(points)` (for projectiles that have any
points at all) — shorter trajectories freeze at their final position. -/
theorem animation_freeze_policy (projs : List Projectile) (f : ℕ) (p : Projectile)
    (_hf : f < max_len projs) (hp : p ∈ projs) :
    (p.id, frame_position p f) ∈ frame_snapshot projs f ∧
    (∀ h : f < p.points.length,
      frame_position p f =
        some ((p.points.get ⟨f, h⟩).x, (p.points.get ⟨f, h⟩).y)) ∧
    (p.points.length ≤ f → ∀ q, p.points.getLast? = some q →
      frame_position p f = some (q.x, q.y)) := by
  refine ⟨?_, ?_, ?_⟩
  · exact List.mem_map_of_mem (fun p => (p.id, frame_position p f)) hp
  · intro h
    rw [frame_position, dif_pos h]
  · intro hge q hq
    rw [frame_position, dif_neg (by omega), hq]
    rfl

/-- Concrete points and projectiles for the C9 witness. -/
def wptA : TrajectoryPoint :=
  { t := 0, x := 1, y := 2, vx := 0, vy := 0, speed := 0 }

def wptB0 : TrajectoryPoint :=
  { t := 0, x := 3, y := 4, vx := 0, vy := 0, speed := 0 }

def wptB1 : TrajectoryPoint :=
  { t := 0.05, x := 5, y := 6, vx := 0, vy := 0, speed := 0 }

def wprojA : Projectile :=
  { id := 0, name := "A", v0 := 1, theta := 45, g := 9.8, y0 := 0,
    color := "#3498DB", points := [wptA] }

def wprojB : Projectile :=
  { id := 1, name := "B", v0 := 2, theta := 45, g := 9.8, y0 := 0,
    color := "#E74C3C", points := [wptB0, wptB1] }

/-- C9 witness: two projectiles with trajectory lengths 1 and 2 at frame 1:
the shorter one reports its last point held fixed, the longer one reports
its index-1 point. -/
theorem animation_freeze_policy_witness :
    1 < max_len [wprojA, wprojB] ∧
    frame_position wprojA 1 = some (wptA.x, wptA.y) ∧
    frame_position wprojB 1 = some (wptB1.x, wptB1.y) ∧
    (wprojA.id, frame_position wprojA 1) ∈ frame_snapshot [wprojA, wprojB] 1 := by
  have hf : 1 < max_len [wprojA, wprojB] := by
    simp [max_len, wprojA, wprojB]
  have hA := animation_freeze_policy [wprojA, wprojB] 1 wprojA hf (by simp)
  have hB := animation_freeze_policy [wprojA, wprojB] 1 wprojB hf (by simp)
  refine ⟨hf, ?_, ?_, hA.1⟩
  · exact hA.2.2 (by simp [wprojA]) wptA (by simp [wprojA])
  · have h1 : (1 : ℕ) < wprojB.points.length := by simp [wprojB]
    have := hB.2.1 h1
    rw [this]
    rfl

/-- C10: exporting a registry, importing the records and re-adding each
returned param set in order into a fresh registry reproduces the same
ordered sequence of `(name, v0, theta, g, y0, color)` tuples; the exported
records contain exactly those six fields (no `id`, no `points`). -/
theorem codec_round_trip (S : SimState) :
    (readd_all (import_records (export_registry S)) initState).projectiles.map paramTuple
      = S.projectiles.map paramTuple := by
  rw [readd_all_tuples]
  simp [initState, import_records, export_registry, List.map_map]
  intro a _
  rfl

lemma discriminant_0092 : discriminant_of 0 0 9 2 = 36 := by
  simp [discriminant_of, theta_rad]
  norm_num

lemma t_max_0092 : t_max_of 0 0 9 2 = 2 / 3 := by
  have h36 : Real.sqrt 36 = 6 := by
    rw [show (36 : ℝ) = 6 ^ 2 by norm_num]
    exact Real.sqrt_sq (by norm_num)
  simp only [t_max_of, clampedD, discriminant_0092, zero_mul, zero_add]
  rw [if_neg (by norm_num : ¬ (36 : ℝ) < 0), h36]
  norm_num

lemma numSamples_23 : numSamples (2 / 3 : ℝ) = 14 := by
  rw [numSamples, if_pos (by norm_num : (0 : ℝ) ≤ 2 / 3)]
  have h40 : ((2 : ℝ) / 3) / 0.05 = 40 / 3 := by norm_num
  rw [h40]
  have hfl : Nat.floor ((40 : ℝ) / 3) = 13 := by
    rw [Nat.floor_eq_iff (by norm_num)]
    norm_num
  rw [hfl]

/-- C2 (amended): `calculate_trajectory` has no gravity validation:
with `g = 0` the `t_max` computation is a division by zero (Python raises
`ZeroDivisionError`, not an `InvalidParameter` condition), and for every
`g ≠ 0` — negative gravity included — the computation succeeds. -/
theorem calc_no_gravity_guard (v0 theta g y0 : ℝ) :
    (g = 0 → calculate_trajectory v0 theta g y0 = Except.error PhysErr.zeroDivision) ∧
    (g ≠ 0 → ∃ pts, calculate_trajectory v0 theta g y0 = Except.ok pts) := by
  constructor
  · intro h
    rw [calculate_trajectory, if_pos h]
  · intro h
    rw [calculate_trajectory, if_neg h]
    exact ⟨_, rfl⟩

/-- C2 witness: concrete instances of both branches of the amended claim. -/
theorem calc_no_gravity_guard_witness :
    calculate_trajectory 1 0 0 0 = Except.error PhysErr.zeroDivision ∧
    ∃ pts, calculate_trajectory 1 0 (-1) 0 = Except.ok pts :=
  ⟨(calc_no_gravity_guard 1 0 0 0).1 rfl,
   (calc_no_gravity_guard 1 0 (-1) 0).2 (by norm_num)⟩

/-- C2 counterexample: for `g = 0` the computation fails precisely by a
division by zero (no `InvalidParameter` condition exists in the source),
and for `g = -1` it does not fail at all — it returns a one-sample
trajectory.  Both halves refute the claim that every `g ≤ 0` input fails
with `InvalidParameter` and that no division by zero is produced. -/
theorem calc_g_nonpositive_counterexample :
    calculate_trajectory 1 0 0 0 = Except.error PhysErr.zeroDivision ∧
    calculate_trajectory 1 0 (-1) 0 =
      Except.ok [{ t := 0, x := 0, y := 0, vx := 1, vy := 0, speed := 1 }] := by
  constructor
  · rw [calculate_trajectory, if_pos rfl]
  · rw [calc_theta0_tmax0 1 (-1) 0 (by norm_num) (t_max_theta0_y00 1 (-1))]
    have hpt : samplePoint 1 0 1 (-1) 0 0 =
        { t := 0, x := 0, y := 0, vx := 1, vy := 0, speed := 1 } := by
      simp [samplePoint]
    rw [hpt]

/-- C3 (amended): for every valid input (`g > 0`) the result is the list
of samples at times `0, dt, 2·dt, …` with `dt = 0.05`, one for each
`k < numSamples t_max` (that is `⌊t_max / dt⌋ + 1` samples when
`t_max ≥ 0`, else none); every sample time is `≤ t_max` (the loop
condition), so the count is a deterministic function of the inputs.  The
first sample with `t ≥ t_max` is included only when `t_max` is an exact
multiple of `dt`. -/
theorem time_grid (v0 theta g y0 : ℝ) (hg : 0 < g) :
    calculate_trajectory v0 theta g y0 =
      Except.ok ((List.range (numSamples (t_max_of v0 theta g y0))).map
        (fun k : ℕ => samplePoint v0 (Real.sin (theta_rad theta))
          (Real.cos (theta_rad theta)) g y0 ((k : ℝ) * 0.05))) ∧
    ((List.range (numSamples (t_max_of v0 theta g y0))).map
        (fun k : ℕ => samplePoint v0 (Real.sin (theta_rad theta))
          (Real.cos (theta_rad theta)) g y0 ((k : ℝ) * 0.05))).map (fun q => q.t)
      = (List.range (numSamples (t_max_of v0 theta g y0))).map
          (fun k : ℕ => (k : ℝ) * 0.05) ∧
    ∀ k : ℕ, k < numSamples (t_max_of v0 theta g y0) →
      (k : ℝ) * 0.05 ≤ t_max_of v0 theta g y0 := by
  refine ⟨calculate_trajectory_eq v0 theta g y0 (ne_of_gt hg), ?_, ?_⟩
  · rw [List.map_map]
    apply List.map_congr_left
    intro k _
    rfl
  · intro k hk
    rw [numSamples] at hk
    by_cases htm : 0 ≤ t_max_of v0 theta g y0
    · rw [if_pos htm] at hk
      have hk' : k ≤ Nat.floor (t_max_of v0 theta g y0 / 0.05) := by omega
      have h1 : (k : ℝ) ≤ t_max_of v0 theta g y0 / 0.05 := by
        calc (k : ℝ) ≤ (Nat.floor (t_max_of v0 theta g y0 / 0.05) : ℝ) := by
              exact_mod_cast hk'
          _ ≤ t_max_of v0 theta g y0 / 0.05 :=
              Nat.floor_le (div_nonneg htm (by norm_num))
      calc (k : ℝ) * 0.05 ≤ (t_max_of v0 theta g y0 / 0.05) * 0.05 :=
            mul_le_mul_of_nonneg_right h1 (by norm_num)
        _ = t_max_of v0 theta g y0 := div_mul_cancel₀ _ (by norm_num)
    · rw [if_neg htm] at hk
      omega

/-- C3 witness: concrete valid input with `g = 9`. -/
theorem time_grid_witness :
    (0 : ℝ) < 9 ∧ (13 : ℝ) * 0.05 ≤ t_max_of 0 0 9 2 := by
  refine ⟨by norm_num, ?_⟩
  have h13 : (13 : ℕ) < numSamples (t_max_of 0 0 9 2) := by
    rw [t_max_0092, numSamples_23]
    omega
  have h := (time_grid 0 0 9 2 (by norm_num)).2.2 13 h13
  exact_mod_cast h

/-- C3 counterexample: for input `(v0, θ, g, y0) = (0, 0, 9, 2)` we get
`t_max = 2/3`, and the produced samples are at `t = k·0.05` for
`k = 0..13`; every sample time is strictly below `t_max`, so the claimed
"first sample with `t ≥ t_max`" is not included (the loop condition is
`t ≤ t_max`, not an inclusive overshoot). -/
theorem time_grid_counterexample :
    calculate_trajectory 0 0 9 2 =
      Except.ok ((List.range 14).map
        (fun k : ℕ => samplePoint 0 0 1 9 2 ((k : ℝ) * 0.05))) ∧
    t_max_of 0 0 9 2 = 2 / 3 ∧
    ∀ pt ∈ (List.range 14).map (fun k : ℕ => samplePoint 0 0 1 9 2 ((k : ℝ) * 0.05)),
      pt.t < t_max_of 0 0 9 2 := by
  refine ⟨?_, t_max_0092, ?_⟩
  · rw [calculate_trajectory_eq 0 0 9 2 (by norm_num), t_max_0092, numSamples_23]
    simp [theta_rad]
  · intro pt hpt
    rw [t_max_0092]
    simp only [List.mem_map, List.mem_range] at hpt
    obtain ⟨k, hk, rfl⟩ := hpt
    show (k : ℝ) * 0.05 < 2 / 3
    have hk13 : (k : ℝ) ≤ 13 := by exact_mod_cast Nat.lt_succ_iff.mp hk
    linarith

/-- C4: for valid inputs, every produced point has `y ≥ 0`; `y` is the
parabola value floor-clamped at 0, and `x`, `vx`, `vy`, `speed` follow the
unclamped formulas in the point's own `t`. -/
theorem ground_clamp (v0 theta g y0 : ℝ) (_hv : 0 ≤ v0) (hg : 0 < g) (_hy : 0 ≤ y0)
    (pts : List TrajectoryPoint)
    (hok : calculate_trajectory v0 theta g y0 = Except.ok pts)
    (pt : TrajectoryPoint) (hpt : pt ∈ pts) :
    0 ≤ pt.y ∧
    pt.y = (if y0 + v0 * Real.sin (theta_rad theta) * pt.t - 0.5 * g * pt.t ^ 2 < 0
      then 0 else y0 + v0 * Real.sin (theta_rad theta) * pt.t - 0.5 * g * pt.t ^ 2) ∧
    pt.x = v0 * Real.cos (theta_rad theta) * pt.t ∧
    pt.vx = v0 * Real.cos (theta_rad theta) ∧
    pt.vy = v0 * Real.sin (theta_rad theta) - g * pt.t ∧
    pt.speed = Real.sqrt (pt.vx ^ 2 + pt.vy ^ 2) := by
  rw [calculate_trajectory_eq v0 theta g y0 (ne_of_gt hg)] at hok
  have hmap := Except.ok.inj hok
  subst hmap
  obtain ⟨k, _, rfl⟩ := List.mem_map.mp hpt
  refine ⟨?_, rfl, rfl, rfl, rfl, rfl⟩
  simp only [samplePoint]
  split
  · exact le_refl 0
  · next h => exact not_lt.mp h

/-- C4 witness: concrete valid input `(0, 0, 1, 0)` whose single sample is
evaluated. -/
theorem ground_clamp_witness :
    (0 : ℝ) ≤ 0 ∧ (0 : ℝ) < 1 ∧
    calculate_trajectory 0 0 1 0 = Except.ok [samplePoint 0 0 1 1 0 0] ∧
    samplePoint 0 0 1 1 0 0 ∈ [samplePoint 0 0 1 1 0 0] ∧
    0 ≤ (samplePoint 0 0 1 1 0 0).y ∧
    (samplePoint 0 0 1 1 0 0).speed =
      Real.sqrt ((samplePoint 0 0 1 1 0 0).vx ^ 2 + (samplePoint 0 0 1 1 0 0).vy ^ 2) := by
  have hok : calculate_trajectory 0 0 1 0 = Except.ok [samplePoint 0 0 1 1 0 0] :=
    calc_theta0_tmax0 0 1 0 one_ne_zero (t_max_theta0_y00 0 1)
  have h := ground_clamp 0 0 1 0 le_rfl one_pos le_rfl _ hok
    (samplePoint 0 0 1 1 0 0) (by simp)
  exact ⟨le_rfl, one_pos, hok, by simp, h.1, h.2.2.2.2.2⟩

end ProjectileSim
